import Mathlib

/-!
Verification of the cricket-scorecard ingestion program
(`scripts/ingest_cricket_data.py`).

The Python source is shallowly embedded below.  Python integers become
`Int`, optional/absent dictionary keys become `Option`, Python's falsy
`or` chaining on integers becomes `pyOrI`, `str.split(sep)` becomes
`splitOnChar`, and code that can raise becomes `Except Unit`.
Definitions keep the source's names where possible.
-/

/-- Python `a or b` on integers: `0` is falsy, every other value truthy. -/
def pyOrI (a b : Int) : Int :=
  if a = 0 then b else a

/-- Python `a or b` on optional strings: `None` and `""` are falsy. -/
def pyOrS (a b : Option String) : Option String :=
  match a with
  | some s => if s = "" then b else some s
  | none => b

/-- Python `str.split(sep)` for a one-character separator, on the
character list of the string.  `splitOnChar sep [] = [[]]`, matching
Python's `"".split(sep) == [""]`. -/
def splitOnChar (sep : Char) : List Char → List (List Char)
  | [] => [[]]
  | c :: rest =>
    let r := splitOnChar sep rest
    if c = sep then [] :: r
    else (c :: r.headD []) :: r.tail

/-- Whether `pat` starts the list `cs`. -/
def startsWithChars : List Char → List Char → Bool
  | [], _ => true
  | _ :: _, [] => false
  | p :: ps, c :: cs => p == c && startsWithChars ps cs

/-- Python `pat in s` on character lists: substring at any position. -/
def containsSub (pat : List Char) : List Char → Bool
  | [] => startsWithChars pat []
  | c :: rest => startsWithChars pat (c :: rest) || containsSub pat rest

/-- Python `int(s)` restricted to plain non-negative decimal digit
strings (the shape over/ball labels and years take in the source data);
any other string is modelled as raising, i.e. `none`. -/
def pyIntOfDigits (cs : List Char) : Option Int :=
  if cs.isEmpty then none
  else if cs.all (fun c => c.isDigit) then
    some (Int.ofNat (cs.foldl (fun a c => a * 10 + (c.toNat - 48)) 0))
  else none

/-- Standard positional value of a decimal digit string (specification
side, used to state what `pyIntOfDigits` computes). -/
def decValue : List Char → Nat
  | [] => 0
  | c :: rest => (c.toNat - 48) * 10 ^ rest.length + decValue rest

/-- `get_phase` from the source: T20 phase of a zero-based over index.
`over_number <= 5` is powerplay, `over_number <= 14` middle, else death. -/
def get_phase (over_number : Int) : String :=
  if over_number ≤ 5 then "powerplay"
  else if over_number ≤ 14 then "middle"
  else "death"

/-- `parse_over_ball` from the source: split the label on `'.'`, the
integral part is `int(parts[0])` (raising, i.e. `none`, if unparseable),
the ball part is `int(parts[1])` when a fractional part is present and
defaults to `1` otherwise. -/
def parse_over_ball (over_ball_key : String) : Option (Int × Int) :=
  match splitOnChar '.' over_ball_key.toList with
  | [] => none
  | p0 :: rest =>
    match pyIntOfDigits p0 with
    | none => none
    | some over_num =>
      match rest with
      | [] => some (over_num, 1)
      | p1 :: _ =>
        match pyIntOfDigits p1 with
        | none => none
        | some ball_num => some (over_num, ball_num)

/-- A parsed YAML value: the nested mapping/sequence structure taken by
`safe_get`. -/
inductive Val where
  | vnull : Val
  | vint : Int → Val
  | vstr : String → Val
  | vbool : Bool → Val
  | vlist : List Val → Val
  | vdict : List (String × Val) → Val

/-- `safe_get` from the source.  The loop body is
`result = result.get(key, default)` when `result` is a dict (so a missing
key substitutes the default and the loop continues with it) and returns
the default immediately otherwise; after the loop the null marker is
replaced by the default. -/
def safe_get (data : Val) (keys : List String) (dflt : Val) : Val :=
  match keys with
  | [] =>
    match data with
    | .vnull => dflt
    | _ => data
  | k :: rest =>
    match data with
    | .vdict d => safe_get ((List.lookup k d).getD dflt) rest dflt
    | _ => dflt

/-- Specification-side navigation: successively index into mappings,
`none` the moment a key is absent or an intermediate value is not a
mapping. -/
def navigate (data : Val) (keys : List String) : Option Val :=
  match keys with
  | [] => some data
  | k :: rest =>
    match data with
    | .vdict d =>
      match List.lookup k d with
      | some v => navigate v rest
      | none => none
    | _ => none

/-- Whether a value is a mapping. -/
def isDict : Val → Bool
  | .vdict _ => true
  | _ => false

/-- The accessor contract as the spec words it: the value reached by
successive indexing, or the default the moment structure is missing or
the reached value is the null marker. -/
def specGet (data : Val) (keys : List String) (dflt : Val) : Val :=
  match navigate data keys with
  | none => dflt
  | some .vnull => dflt
  | some v => v

/-! ### Raw source-record data model

The nested YAML record, modelled with `Option` for keys the source files
may omit.  Pathological shapes the script would crash on anyway (an
innings entry that is an empty dict, a delivery entry with no key) are
not representable. -/

/-- The `runs` sub-dictionary of a delivery. -/
structure RawRuns where
  batsman : Option Int
  batter : Option Int
  extras : Option Int
  total : Option Int

/-- The `extras` sub-dictionary of a delivery. -/
structure RawExtras where
  wides : Option Int
  noballs : Option Int
  byes : Option Int
  legbyes : Option Int
  penalty : Option Int

/-- One entry of a wicket's `fielders` list: either a dict carrying a
`name` key or a bare string. -/
inductive FielderEntry where
  | named : Option String → FielderEntry
  | plain : String → FielderEntry

/-- One wicket dictionary. -/
structure RawWicketInfo where
  kind : Option String
  player_out : Option String
  fielders : Option (List FielderEntry)

/-- A `wicket`/`wickets` value: a single dict or a list of dicts. -/
inductive RawWicket where
  | single : RawWicketInfo → RawWicket
  | multi : List RawWicketInfo → RawWicket

/-- One delivery dictionary (the value under the over.ball key). -/
structure RawDelivery where
  runs : Option RawRuns
  extras : Option RawExtras
  wicket : Option RawWicket
  wickets : Option RawWicket
  batsman : Option String
  batter : Option String
  non_striker : Option String
  bowler : Option String

/-- One innings entry: the single key of the entry dict (`label`) and the
fields read from the innings info dict.  A missing `deliveries` key is
the empty list, as in `innings_info.get('deliveries', [])`. -/
structure RawInnings where
  label : String
  team : Option String
  deliveries : List (String × RawDelivery)

/-- A match date: either a structured date (YAML date scalar, the source
reads `.year`) or a plain string prefixed `YYYY-`. -/
inductive RawDate where
  | structured : Int → RawDate
  | text : String → RawDate
  deriving DecidableEq

/-- The `info` header of a record.  `safe_get(info, 'toss', 'winner')`
and `safe_get(info, 'toss', 'decision')` are modelled as the flattened
optional fields `toss_winner` / `toss_decision`. -/
structure RawInfo where
  dates : List RawDate
  outcome_result : Option String
  outcome_winner : Option String
  win_by_runs : Option Int
  win_by_wickets : Option Int
  teams : List String
  player_of_match : List String
  match_type : Option String
  competition : Option String
  venue : Option String
  city : Option String
  toss_winner : Option String
  toss_decision : Option String
  players : List (String × List String)

/-- One parsed source record. -/
structure RawMatch where
  info : RawInfo
  innings : List RawInnings

/-! ### Extracted rows -/

/-- A row of `ball_by_ball`, as built by `extract_innings_and_deliveries`. -/
structure DeliveryRow where
  match_id : Nat
  innings_number : Nat
  over_number : Int
  ball_number : Int
  batting_team : Option String
  bowling_team : Option String
  striker : Option String
  non_striker : Option String
  bowler : Option String
  runs_batter : Int
  runs_extras : Int
  runs_total : Int
  extras_wides : Int
  extras_noballs : Int
  extras_byes : Int
  extras_legbyes : Int
  extras_penalty : Int
  is_wicket : Bool
  wicket_type : Option String
  player_dismissed : Option String
  fielder : Option String
  is_boundary : Bool
  is_four : Bool
  is_six : Bool
  is_dot_ball : Bool
  is_legal_delivery : Bool
  phase : String
  deriving DecidableEq

/-- A row of `innings`.  The source computes
`total_overs = float(f"{last_over}.{last_ball}")`; the float conversion
itself is not modelled (floating point) — `total_overs` here is the
decimal literal string handed to `float`. -/
structure InningsRow where
  match_id : Nat
  innings_number : Nat
  batting_team : Option String
  bowling_team : Option String
  total_runs : Int
  total_wickets : Int
  total_overs : String
  total_extras : Int
  is_super_over : Bool
  deriving DecidableEq

/-- A row of `matches`, as built by `extract_match_data`. -/
structure MatchData where
  source_file : String
  match_type : String
  competition : String
  season : Option Int
  match_date : Option RawDate
  venue : String
  city : Option String
  team1 : Option String
  team2 : Option String
  toss_winner : Option String
  toss_decision : Option String
  winner : Option String
  win_by_runs : Int
  win_by_wickets : Int
  result_type : String
  player_of_match : Option String
  deriving DecidableEq

/-! ### Match and player extraction -/

/-- Season from the first listed date: the `.year` of a structured date,
or `int(s.split('-')[0])` of a string date — which raises (`.error`)
when the prefix is not numeric. -/
def parseSeason : RawDate → Except Unit (Option Int)
  | .structured y => .ok (some y)
  | .text s =>
    match pyIntOfDigits ((splitOnChar '-' s.toList).headD []) with
    | some n => .ok (some n)
    | none => .error ()

/-- `extract_match_data` from the source. -/
def extract_match_data (source_file : String) (y : RawMatch) : Except Unit MatchData :=
  let info := y.info
  let match_date := info.dates.head?
  match (match match_date with
         | none => Except.ok (none : Option Int)
         | some d => parseSeason d) with
  | .error u => .error u
  | .ok season =>
    let winner := info.outcome_winner
    let result_type :=
      match info.outcome_result with
      | some r => r
      | none =>
        match winner with
        | none => "no result"
        | some _ => "normal"
    .ok { source_file := source_file,
          match_type := info.match_type.getD "T20",
          competition := info.competition.getD "IPL",
          season := season,
          match_date := match_date,
          venue := info.venue.getD "Unknown",
          city := info.city,
          team1 := info.teams.head?,
          team2 := info.teams[1]?,
          toss_winner := info.toss_winner,
          toss_decision := info.toss_decision,
          winner := winner,
          win_by_runs := pyOrI (info.win_by_runs.getD 0) 0,
          win_by_wickets := pyOrI (info.win_by_wickets.getD 0) 0,
          result_type := result_type,
          player_of_match := info.player_of_match.head? }

/-- `extract_players` from the source: flatten the roster into
(player, team) pairs, in source order. -/
def extract_players (y : RawMatch) : List (String × String) :=
  y.info.players.foldl (fun acc p => acc ++ p.2.map (fun n => (n, p.1))) []

/-! ### Innings/delivery extraction -/

/-- Truthiness of a wicket value: a dict is truthy, a list is truthy iff
non-empty (an all-absent dict, which Python would treat as falsy `{}`,
is not distinguished here). -/
def wTruthy : RawWicket → Bool
  | .single _ => true
  | .multi l => !l.isEmpty

/-- Truthiness including `None`. -/
def wTruthyO : Option RawWicket → Bool
  | none => false
  | some w => wTruthy w

/-- Python `delivery.get('wicket') or delivery.get('wickets')`. -/
def pyOrW (a b : Option RawWicket) : Option RawWicket :=
  if wTruthyO a then a else b

/-- The wicket dict used: the value itself, or its first entry when it
is a list (`wicket = wicket[0]`). -/
def firstWicket : Option RawWicket → RawWicketInfo
  | some (.single i) => i
  | some (.multi l) => l.headD ⟨none, none, none⟩
  | none => ⟨none, none, none⟩

/-- `fielders = wicket.get('fielders', [])`; if non-empty, the name of
the first entry (`.get('name')` for a dict, the entry itself for a
string). -/
def fielderName (fs : Option (List FielderEntry)) : Option String :=
  match (fs.getD []).head? with
  | none => none
  | some (.named o) => o
  | some (.plain s) => some s

/-- All-absent `runs` dict (`delivery.get('runs', {})`). -/
def noRuns : RawRuns := ⟨none, none, none, none⟩

/-- All-absent `extras` dict (`delivery.get('extras', {})`). -/
def noExtras : RawExtras := ⟨none, none, none, none, none⟩

/-- The row-building part of the per-delivery loop body: read the
run/extras breakdowns with the source's `or`-defaults, determine
legality, wicket detail and the derived flags, and build the
`ball_by_ball` row for the parsed over/ball pair `ob`. -/
def mkDeliveryRow (match_id innings_number : Nat)
    (batting_team bowling_team : Option String)
    (ob : Int × Int) (d : RawDelivery) : DeliveryRow :=
    let runs := d.runs.getD noRuns
    let runs_batter := pyOrI (runs.batsman.getD 0) (pyOrI (runs.batter.getD 0) 0)
    let runs_extras := pyOrI (runs.extras.getD 0) 0
    let runs_total := pyOrI (runs.total.getD 0) 0
    let ex := d.extras.getD noExtras
    let extras_wides := pyOrI (ex.wides.getD 0) 0
    let extras_noballs := pyOrI (ex.noballs.getD 0) 0
    let extras_byes := pyOrI (ex.byes.getD 0) 0
    let extras_legbyes := pyOrI (ex.legbyes.getD 0) 0
    let extras_penalty := pyOrI (ex.penalty.getD 0) 0
    let is_legal := extras_wides == 0 && extras_noballs == 0
    let wfield := pyOrW d.wicket d.wickets
    let is_wicket := wTruthyO wfield
    let w := firstWicket wfield
    let is_four := runs_batter == 4
    let is_six := runs_batter == 6
    { match_id := match_id,
          innings_number := innings_number,
          over_number := ob.1,
          ball_number := ob.2,
          batting_team := batting_team,
          bowling_team := bowling_team,
          striker := pyOrS d.batsman d.batter,
          non_striker := d.non_striker,
          bowler := d.bowler,
          runs_batter := runs_batter,
          runs_extras := runs_extras,
          runs_total := runs_total,
          extras_wides := extras_wides,
          extras_noballs := extras_noballs,
          extras_byes := extras_byes,
          extras_legbyes := extras_legbyes,
          extras_penalty := extras_penalty,
          is_wicket := is_wicket,
          wicket_type := if is_wicket then w.kind else none,
          player_dismissed := if is_wicket then w.player_out else none,
          fielder := if is_wicket then fielderName w.fielders else none,
          is_boundary := is_four || is_six,
          is_four := is_four,
          is_six := is_six,
          is_dot_ball := runs_total == 0 && is_legal,
          is_legal_delivery := is_legal,
          phase := get_phase ob.1 }

/-- The body of the per-delivery loop of
`extract_innings_and_deliveries`: parse the over.ball key (raising on an
unparseable integral part, which aborts the record), then build the row. -/
def extractOneDelivery (match_id innings_number : Nat)
    (batting_team bowling_team : Option String)
    (entry : String × RawDelivery) : Except Unit DeliveryRow :=
  match parse_over_ball entry.1 with
  | none => .error ()
  | some ob => .ok (mkDeliveryRow match_id innings_number batting_team bowling_team ob entry.2)

/-- The per-innings running accumulators of the source loop. -/
structure InnAcc where
  total_runs : Int
  total_extras : Int
  total_wickets : Int
  last_over : Int
  last_ball : Int
  rows : List DeliveryRow
  deriving DecidableEq

/-- The accumulator start of each innings. -/
def initAcc : InnAcc := ⟨0, 0, 0, 0, 0, []⟩

/-- One iteration's accumulator update. -/
def stepAcc (acc : InnAcc) (row : DeliveryRow) : InnAcc :=
  { total_runs := acc.total_runs + row.runs_total,
    total_extras := acc.total_extras + row.runs_extras,
    total_wickets := acc.total_wickets + (if row.is_wicket then 1 else 0),
    last_over := row.over_number,
    last_ball := row.ball_number,
    rows := acc.rows ++ [row] }

/-- The delivery loop: process deliveries in source order, accumulating
totals and rows; an unparseable over.ball key aborts (`.error`). -/
def processDeliveries (match_id innings_number : Nat)
    (batting_team bowling_team : Option String) :
    List (String × RawDelivery) → InnAcc → Except Unit InnAcc
  | [], acc => .ok acc
  | e :: rest, acc =>
    match extractOneDelivery match_id innings_number batting_team bowling_team e with
    | .error u => .error u
    | .ok row => processDeliveries match_id innings_number batting_team bowling_team rest (stepAcc acc row)

/-- Accumulator-free companion of `processDeliveries`: just the rows, in
order. -/
def extractRows (match_id innings_number : Nat)
    (batting_team bowling_team : Option String) :
    List (String × RawDelivery) → Except Unit (List DeliveryRow)
  | [] => .ok []
  | e :: rest =>
    match extractOneDelivery match_id innings_number batting_team bowling_team e with
    | .error u => .error u
    | .ok row =>
      match extractRows match_id innings_number batting_team bowling_team rest with
      | .error u => .error u
      | .ok rows => .ok (row :: rows)

/-- What the loop's accumulators amount to over a block of rows. -/
def combine (acc : InnAcc) (rows : List DeliveryRow) : InnAcc :=
  { total_runs := acc.total_runs + (rows.map (fun r => r.runs_total)).sum,
    total_extras := acc.total_extras + (rows.map (fun r => r.runs_extras)).sum,
    total_wickets := acc.total_wickets + Int.ofNat (rows.filter (fun r => r.is_wicket)).length,
    last_over := ((rows.getLast?).map (fun r => r.over_number)).getD acc.last_over,
    last_ball := ((rows.getLast?).map (fun r => r.ball_number)).getD acc.last_ball,
    rows := acc.rows ++ rows }

/-- The bowling-team loop: the first team of the match's team list that
differs from the batting team (`None`-valued batting team differs from
every team, as in Python). -/
def inferBowling (teams : List String) (batting : Option String) : Option String :=
  teams.find? (fun t => !(batting == some t))

/-- The body of the per-innings loop: bowling-team inference, super-over
detection, the delivery loop, and the `innings` row. -/
def processInnings (match_id : Nat) (teams : List String) (idx : Nat)
    (inn : RawInnings) : Except Unit (InningsRow × List DeliveryRow) :=
  let innings_number := idx + 1
  let batting_team := inn.team
  let bowling_team := inferBowling teams batting_team
  let is_super_over := containsSub "super".toList inn.label.toLower.toList
  match processDeliveries match_id innings_number batting_team bowling_team inn.deliveries initAcc with
  | .error u => .error u
  | .ok acc =>
    .ok ({ match_id := match_id,
           innings_number := innings_number,
           batting_team := batting_team,
           bowling_team := bowling_team,
           total_runs := acc.total_runs,
           total_wickets := acc.total_wickets,
           total_overs := toString acc.last_over ++ "." ++ toString acc.last_ball,
           total_extras := acc.total_extras,
           is_super_over := is_super_over }, acc.rows)

/-- The innings loop of `extract_innings_and_deliveries`: innings in
source order, numbered `idx+1`; the first parse failure aborts the whole
extraction. -/
def extractInningsList (match_id : Nat) (teams : List String) :
    Nat → List RawInnings → Except Unit (List InningsRow × List DeliveryRow)
  | _, [] => .ok ([], [])
  | idx, inn :: rest =>
    match processInnings match_id teams idx inn with
    | .error u => .error u
    | .ok (row, dels) =>
      match extractInningsList match_id teams (idx + 1) rest with
      | .error u => .error u
      | .ok (rows, allDels) => .ok (row :: rows, dels ++ allDels)

/-- `extract_innings_and_deliveries` from the source. -/
def extract_innings_and_deliveries (y : RawMatch) (match_id : Nat)
    (teams : List String) : Except Unit (List InningsRow × List DeliveryRow) :=
  extractInningsList match_id teams 0 y.innings

/-! ### Storage and the load orchestrator -/

/-- The relational store: the four tables (the `matches` table is the
`matchTable` field, since `matches` is a reserved word here) and the
match-id generator. -/
structure Storage where
  matchTable : List (Nat × MatchData)
  players : List (String × String)
  innings : List InningsRow
  deliveries : List DeliveryRow
  next_id : Nat
  deriving DecidableEq

/-- `insert_match` from the source: `None` when a match row with the
same `source_file` natural key already exists, otherwise the new row and
its generated id. -/
def insert_match (st : Storage) (md : MatchData) : Option (Nat × Storage) :=
  if st.matchTable.any (fun p => p.2.source_file == md.source_file) then none
  else some (st.next_id,
    { st with matchTable := st.matchTable ++ [(st.next_id, md)], next_id := st.next_id + 1 })

/-- `insert_players`: `ON CONFLICT (player_name, team) DO NOTHING`. -/
def insert_players (st : Storage) (ps : List (String × String)) : Storage :=
  { st with players := ps.foldl (fun acc p => if p ∈ acc then acc else acc ++ [p]) st.players }

/-- `insert_innings`: append the ordered batch. -/
def insert_innings (st : Storage) (rows : List InningsRow) : Storage :=
  { st with innings := st.innings ++ rows }

/-- `insert_deliveries`: append the ordered batch. -/
def insert_deliveries (st : Storage) (rows : List DeliveryRow) : Storage :=
  { st with deliveries := st.deliveries ++ rows }

/-- How one call of `process_yaml_file` ends: `return True`,
`return False`, or an exception propagating to `main`'s handler. -/
inductive ProcOut where
  | retTrue : ProcOut
  | retFalse : ProcOut
  | raised : ProcOut
  deriving DecidableEq

/-- `process_yaml_file` from the source.  `content = none` models a file
whose YAML parses to nothing (`if not yaml_data: return False`), which
also covers a caught `yaml.YAMLError` (`return False`).  A season-parse
failure raises (`.raised`).  On `.raised` the returned storage is the
uncommitted cursor state; `main` rolls it back. -/
def process_yaml_file (st : Storage) (filename : String)
    (content : Option RawMatch) : Storage × ProcOut :=
  match content with
  | none => (st, .retFalse)
  | some y =>
    match extract_match_data filename y with
    | .error _ => (st, .raised)
    | .ok md =>
      match insert_match st md with
      | none => (st, .retFalse)
      | some (mid, st1) =>
        let st2 := insert_players st1 (extract_players y)
        match extract_innings_and_deliveries y mid y.info.teams with
        | .error _ => (st2, .raised)
        | .ok pr => (insert_deliveries (insert_innings st2 pr.1) pr.2, .retTrue)

/-- One iteration of the per-file loop in `main`: `True` commits and
counts success, `False` counts a skip (no rollback is issued — none of
the `False` paths has written), an exception rolls back and counts an
error.  The counts triple is (success, skip, error). -/
def mainStep (acc : Storage × (Nat × Nat × Nat)) (file : String × Option RawMatch) :
    Storage × (Nat × Nat × Nat) :=
  match process_yaml_file acc.1 file.1 file.2 with
  | (st2, ProcOut.retTrue) => (st2, (acc.2.1 + 1, acc.2.2.1, acc.2.2.2))
  | (st2, ProcOut.retFalse) => (st2, (acc.2.1, acc.2.2.1 + 1, acc.2.2.2))
  | (_, ProcOut.raised) => (acc.1, (acc.2.1, acc.2.2.1, acc.2.2.2 + 1))

/-- The per-file loop of `main` over a batch of parsed files. -/
def mainLoop (st : Storage) (files : List (String × Option RawMatch)) :
    Storage × (Nat × Nat × Nat) :=
  files.foldl mainStep (st, (0, 0, 0))

/-! ### Specification-side helper -/

/-- The spec's reading of the striker-runs extraction: the first
non-zero (present) value in priority order, else `0`. -/
def firstNonZero : List (Option Int) → Int
  | [] => 0
  | v :: rest => if v.getD 0 ≠ 0 then v.getD 0 else firstNonZero rest

/-! ### Concrete sample data (used by witnesses and counterexamples) -/

/-- A default delivery row (only a `getD` fallback in sample data). -/
def emptyRow : DeliveryRow :=
  { match_id := 0, innings_number := 0, over_number := 0, ball_number := 0,
    batting_team := none, bowling_team := none, striker := none,
    non_striker := none, bowler := none, runs_batter := 0, runs_extras := 0,
    runs_total := 0, extras_wides := 0, extras_noballs := 0, extras_byes := 0,
    extras_legbyes := 0, extras_penalty := 0, is_wicket := false,
    wicket_type := none, player_dismissed := none, fielder := none,
    is_boundary := false, is_four := false, is_six := false,
    is_dot_ball := false, is_legal_delivery := false, phase := "" }

/-- A default innings row (only a `getD` fallback in sample data). -/
def emptyInningsRow : InningsRow :=
  { match_id := 0, innings_number := 0, batting_team := none,
    bowling_team := none, total_runs := 0, total_wickets := 0,
    total_overs := "", total_extras := 0, is_super_over := false }

/-- A minimal record header naming teams `A` and `B`. -/
def sampleInfo : RawInfo :=
  { dates := [], outcome_result := none, outcome_winner := none,
    win_by_runs := none, win_by_wickets := none, teams := ["A", "B"],
    player_of_match := [], match_type := none, competition := none,
    venue := none, city := none, toss_winner := none, toss_decision := none,
    players := [] }

/-- A minimal ingestible record with no innings. -/
def sampleRec : RawMatch := { info := sampleInfo, innings := [] }

/-- A legal boundary delivery: batter 4, total 4, no extras. -/
def sampleD1 : RawDelivery :=
  { runs := some { batsman := some 4, batter := none, extras := none, total := some 4 },
    extras := none, wicket := none, wickets := none, batsman := some "S",
    batter := none, non_striker := some "N", bowler := some "B" }

/-- A wide with a wicket: one extras run, a single wicket dict. -/
def sampleD2 : RawDelivery :=
  { runs := some { batsman := some 0, batter := none, extras := some 1, total := some 1 },
    extras := some { wides := some 1, noballs := none, byes := none, legbyes := none, penalty := none },
    wicket := some (RawWicket.single { kind := some "run out", player_out := some "S", fielders := none }),
    wickets := none, batsman := some "S", batter := none, non_striker := none, bowler := none }

/-- A two-delivery innings batted by team `A`. -/
def sampleInn : RawInnings :=
  { label := "1st innings", team := some "A",
    deliveries := [("0.1", sampleD1), ("0.2", sampleD2)] }

/-- An innings whose final delivery label has no fractional part. -/
def sampleInnDotless : RawInnings :=
  { label := "1st innings", team := some "A", deliveries := [("7", sampleD1)] }

/-- An innings with zero deliveries. -/
def innNoDeliveries : RawInnings :=
  { label := "1st innings", team := some "A", deliveries := [] }

/-- A record carrying the two-delivery sample innings. -/
def sampleMatch : RawMatch := { info := sampleInfo, innings := [sampleInn] }

/-- The extraction output of `sampleMatch`. -/
def sampleOut : List InningsRow × List DeliveryRow :=
  (extract_innings_and_deliveries sampleMatch 1 ["A", "B"]).toOption.getD ([], [])

/-- The first extracted delivery row of `sampleMatch`. -/
def sampleRow : DeliveryRow := sampleOut.2.headD emptyRow

/-- Inconsistent raw data: batter runs 4 but total runs recorded 0. -/
def badTotalsD : RawDelivery :=
  { runs := some { batsman := some 4, batter := none, extras := none, total := some 0 },
    extras := none, wicket := none, wickets := none, batsman := none,
    batter := none, non_striker := none, bowler := none }

/-- The row extracted from `badTotalsD`. -/
def badTotalsRow : DeliveryRow :=
  (extractOneDelivery 1 1 (some "A") (some "B") ("0.1", badTotalsD)).toOption.getD emptyRow

/-- A delivery whose runs dict has `batsman` 0 and `batter` 5. -/
def twoSpellingsD : RawDelivery :=
  { runs := some { batsman := some 0, batter := some 5, extras := none, total := some 5 },
    extras := none, wicket := none, wickets := none, batsman := none,
    batter := none, non_striker := none, bowler := none }

/-- The row extracted from `twoSpellingsD`. -/
def twoSpellingsRow : DeliveryRow :=
  (extractOneDelivery 1 1 none none ("0.1", twoSpellingsD)).toOption.getD emptyRow

/-- The innings/delivery pair produced from `sampleInn`. -/
def sampleInnPair : InningsRow × List DeliveryRow :=
  (processInnings 1 ["A", "B"] 0 sampleInn).toOption.getD (emptyInningsRow, [])

/-- The innings row produced from the innings batted by `B`. -/
def innBattingB : RawInnings :=
  { label := "2nd innings", team := some "B", deliveries := [] }

/-- The pair produced from `innBattingB`. -/
def innBattingBPair : InningsRow × List DeliveryRow :=
  (processInnings 1 ["A", "B"] 1 innBattingB).toOption.getD (emptyInningsRow, [])

/-- An empty storage. -/
def emptyStorage : Storage :=
  { matchTable := [], players := [], innings := [], deliveries := [], next_id := 0 }

/-- The match row `sampleRec` extracts to under filename `m1.yaml`. -/
def sampleMD : MatchData :=
  (extract_match_data "m1.yaml" sampleRec).toOption.getD
    { source_file := "", match_type := "", competition := "", season := none,
      match_date := none, venue := "", city := none, team1 := none,
      team2 := none, toss_winner := none, toss_decision := none,
      winner := none, win_by_runs := 0, win_by_wickets := 0,
      result_type := "", player_of_match := none }

/-- Storage already holding `sampleMD` under its natural key. -/
def storageWithSample : Storage :=
  { matchTable := [(0, sampleMD)], players := [], innings := [], deliveries := [],
    next_id := 1 }

/-! ### Lemmas: digit strings and splitting -/

/-- The loop form of decimal accumulation equals the positional value. -/
theorem foldl_decValue (cs : List Char) : ∀ a : Nat,
    cs.foldl (fun a c => a * 10 + (c.toNat - 48)) a = a * 10 ^ cs.length + decValue cs := by
  induction cs with
  | nil => intro a; simp [decValue]
  | cons c rest ih =>
    intro a
    simp only [List.foldl_cons, decValue, ih, List.length_cons]
    ring

/-- Splitting a separator-free list is the one-part split. -/
theorem splitOnChar_no_sep (sep : Char) (cs : List Char)
    (h : ∀ c ∈ cs, c ≠ sep) : splitOnChar sep cs = [cs] := by
  induction cs with
  | nil => rfl
  | cons c rest ih =>
    have hc : c ≠ sep := h c (List.mem_cons_self _ _)
    have hr := ih (fun x hx => h x (List.mem_cons_of_mem _ hx))
    simp [splitOnChar, hr, hc]

/-- Splitting at the first separator peels off the separator-free head. -/
theorem splitOnChar_append (sep : Char) (cs ds : List Char)
    (h : ∀ c ∈ cs, c ≠ sep) :
    splitOnChar sep (cs ++ sep :: ds) = cs :: splitOnChar sep ds := by
  induction cs with
  | nil => simp [splitOnChar]
  | cons c rest ih =>
    have hc : c ≠ sep := h c (List.mem_cons_self _ _)
    have hr := ih (fun x hx => h x (List.mem_cons_of_mem _ hx))
    simp [splitOnChar, hr, hc]

/-- On a non-empty all-digit string, the modelled `int()` returns the
positional value. -/
theorem pyIntOfDigits_digits (cs : List Char) (h1 : cs ≠ [])
    (h2 : ∀ c ∈ cs, c.isDigit) :
    pyIntOfDigits cs = some (Int.ofNat (decValue cs)) := by
  have he : cs.isEmpty = false := by
    cases cs with
    | nil => exact absurd rfl h1
    | cons c rest => rfl
  have ha : cs.all (fun c => c.isDigit) = true := by
    rw [List.all_eq_true]; exact h2
  simp [pyIntOfDigits, he, ha, foldl_decValue]

/-- C1.  For every over index, `get_phase` returns `powerplay` on 0–5,
`middle` on 6–14 and `death` on 15 and above; the boundaries 5/6 and
14/15 are exact (see the witness). -/
theorem get_phase_ranges (n : Int) :
    (0 ≤ n → n ≤ 5 → get_phase n = "powerplay") ∧
    (6 ≤ n → n ≤ 14 → get_phase n = "middle") ∧
    (15 ≤ n → get_phase n = "death") := by
  refine ⟨?_, ?_, ?_⟩
  · intro h0 h5
    simp [get_phase, h5]
  · intro h6 h14
    have hn5 : ¬ n ≤ 5 := by omega
    simp [get_phase, hn5, h14]
  · intro h15
    have hn5 : ¬ n ≤ 5 := by omega
    have hn14 : ¬ n ≤ 14 := by omega
    simp [get_phase, hn5, hn14]

/-- Witness for C1 at the boundary indices 5, 6, 14 and 15. -/
theorem get_phase_ranges_witness :
    get_phase 5 = "powerplay" ∧ get_phase 6 = "middle" ∧
    get_phase 14 = "middle" ∧ get_phase 15 = "death" :=
  ⟨(get_phase_ranges 5).1 (by decide) (by decide),
   (get_phase_ranges 6).2.1 (by decide) (by decide),
   (get_phase_ranges 14).2.1 (by decide) (by decide),
   (get_phase_ranges 15).2.2 (by decide)⟩

/-- C2.  On every label `"<int>.<int>"` the parser returns the pair of
the two integers, and on every label `"<int>"` it returns that integer
with ball index defaulting to `1` (not `0`). -/
theorem parse_over_ball_spec (cs ds : List Char) (hcs : cs ≠ []) (hds : ds ≠ [])
    (hc : ∀ c ∈ cs, c.isDigit) (hd2 : ∀ c ∈ ds, c.isDigit) :
    parse_over_ball (String.mk (cs ++ '.' :: ds)) =
      some (Int.ofNat (decValue cs), Int.ofNat (decValue ds)) ∧
    parse_over_ball (String.mk cs) = some (Int.ofNat (decValue cs), 1) := by
  have hcd : ∀ c ∈ cs, c ≠ '.' := by
    intro c hm he
    have hdig := hc c hm
    rw [he] at hdig
    exact absurd hdig (by decide)
  have hdd : ∀ c ∈ ds, c ≠ '.' := by
    intro c hm he
    have hdig := hd2 c hm
    rw [he] at hdig
    exact absurd hdig (by decide)
  constructor
  · show parse_over_ball (String.mk (cs ++ '.' :: ds)) = _
    unfold parse_over_ball
    rw [show (String.mk (cs ++ '.' :: ds)).toList = cs ++ '.' :: ds from rfl,
        splitOnChar_append '.' cs ds hcd, splitOnChar_no_sep '.' ds hdd]
    simp only [pyIntOfDigits_digits cs hcs hc, pyIntOfDigits_digits ds hds hd2]
  · unfold parse_over_ball
    rw [show (String.mk cs).toList = cs from rfl, splitOnChar_no_sep '.' cs hcd]
    simp only [pyIntOfDigits_digits cs hcs hc]

/-- Witness for C2: `"16.3"` parses to `(16, 3)`, `"0"` to `(0, 1)`
(default ball index), `"19.6"` to `(19, 6)`. -/
theorem parse_over_ball_spec_witness :
    parse_over_ball "16.3" = some (16, 3) ∧
    parse_over_ball "0" = some (0, 1) ∧
    parse_over_ball "19.6" = some (19, 6) :=
  ⟨((parse_over_ball_spec ['1', '6'] ['3'] (by decide) (by decide)
      (by decide) (by decide)).1).trans (by decide),
   ((parse_over_ball_spec ['0'] ['7'] (by decide) (by decide)
      (by decide) (by decide)).2).trans (by decide),
   ((parse_over_ball_spec ['1', '9'] ['6'] (by decide) (by decide)
      (by decide) (by decide)).1).trans (by decide)⟩

/-! ### Lemmas and theorems: `safe_get` (C9) -/

/-- Navigating out of a non-mapping default returns the default. -/
theorem safe_get_self (dflt : Val) (hd : isDict dflt = false) :
    ∀ keys : List String, safe_get dflt keys dflt = dflt := by
  intro keys
  cases keys with
  | nil => cases dflt <;> rfl
  | cons k rest =>
    cases dflt with
    | vdict d => exact absurd hd (by simp [isDict])
    | vnull => rfl
    | vint n => rfl
    | vstr s => rfl
    | vbool b => rfl
    | vlist l => rfl

/-- C9 (amended).  For every nested value, key sequence and non-mapping
default, `safe_get` returns the navigated value, or the default as soon
as structure is missing or the reached value is the null marker — and it
is a total function, so it never raises.  (For a mapping default the
original claim fails: a missing key substitutes the default and
navigation continues inside it, see the counterexample.) -/
theorem safe_get_eq_specGet (data : Val) (keys : List String) (dflt : Val)
    (hd : isDict dflt = false) :
    safe_get data keys dflt = specGet data keys dflt := by
  induction keys generalizing data with
  | nil => cases data <;> rfl
  | cons k rest ih =>
    cases data with
    | vdict d =>
      cases hl : List.lookup k d with
      | some v =>
        have h1 : safe_get (Val.vdict d) (k :: rest) dflt = safe_get v rest dflt := by
          simp [safe_get, hl]
        have h2 : specGet (Val.vdict d) (k :: rest) dflt = specGet v rest dflt := by
          simp [specGet, navigate, hl]
        rw [h1, h2, ih]
      | none =>
        have h1 : safe_get (Val.vdict d) (k :: rest) dflt = safe_get dflt rest dflt := by
          simp [safe_get, hl]
        have h2 : specGet (Val.vdict d) (k :: rest) dflt = dflt := by
          simp [specGet, navigate, hl]
        rw [h1, h2, safe_get_self dflt hd rest]
    | vnull => rfl
    | vint n => rfl
    | vstr s => rfl
    | vbool b => rfl
    | vlist l => rfl

/-- Witness for C9: a two-level lookup with the source's `None` default. -/
theorem safe_get_eq_specGet_witness :
    safe_get (Val.vdict [("toss", Val.vdict [("winner", Val.vstr "A")])])
      ["toss", "winner"] Val.vnull = Val.vstr "A" :=
  (safe_get_eq_specGet
    (Val.vdict [("toss", Val.vdict [("winner", Val.vstr "A")])])
    ["toss", "winner"] Val.vnull rfl).trans rfl

/-- Counterexample for C9 as stated: with a mapping default, a missing
key does not return the default — the loop keeps navigating inside the
default (`{}.get('a', {'b': 5})` then `.get('b')` gives `5`). -/
theorem safe_get_dict_default_cex :
    safe_get (Val.vdict []) ["a", "b"] (Val.vdict [("b", Val.vint 5)]) = Val.vint 5 ∧
    Val.vint 5 ≠ Val.vdict [("b", Val.vint 5)] :=
  ⟨rfl, fun h => Val.noConfusion h⟩

/-! ### Lemmas: the delivery loop -/

/-- Combining no rows leaves the accumulator unchanged. -/
theorem combine_nil (acc : InnAcc) : combine acc [] = acc := by
  simp [combine]

/-- Auxiliary: the `getD`-of-last form absorbs one leading row. -/
theorem getLast_map_getD (r : DeliveryRow) (rs : List DeliveryRow)
    (f : DeliveryRow → Int) (d : Int) :
    (((rs.getLast?).map f).getD (f r)) = ((((r :: rs).getLast?).map f).getD d) := by
  cases rs with
  | nil => rfl
  | cons x xs =>
    rw [List.getLast?_cons_cons]
    cases hgl : (x :: xs).getLast? with
    | none => simp at hgl
    | some y => rfl

/-- One loop step folded into `combine`. -/
theorem combine_cons (acc : InnAcc) (r : DeliveryRow) (rs : List DeliveryRow) :
    combine (stepAcc acc r) rs = combine acc (r :: rs) := by
  simp only [combine, stepAcc, InnAcc.mk.injEq]
  refine ⟨?_, ?_, ?_, ?_, ?_, ?_⟩
  · simp only [List.map_cons, List.sum_cons]
    ring
  · simp only [List.map_cons, List.sum_cons]
    ring
  · by_cases hw : r.is_wicket
    · simp [List.filter_cons, hw]
      omega
    · simp [List.filter_cons, hw]
  · exact getLast_map_getD r rs (fun x => x.over_number) acc.last_over
  · exact getLast_map_getD r rs (fun x => x.ball_number) acc.last_ball
  · simp

/-- The accumulator loop is the row extraction followed by `combine`. -/
theorem processDeliveries_eq (mid n : Nat) (bt bw : Option String) :
    ∀ (es : List (String × RawDelivery)) (acc : InnAcc),
      processDeliveries mid n bt bw es acc =
        (extractRows mid n bt bw es).map (combine acc) := by
  intro es
  induction es with
  | nil =>
    intro acc
    simp [processDeliveries, extractRows, Except.map, combine_nil]
  | cons e rest ih =>
    intro acc
    simp only [processDeliveries, extractRows]
    cases h1 : extractOneDelivery mid n bt bw e with
    | error u => simp [Except.map]
    | ok r =>
      dsimp only
      rw [ih (stepAcc acc r)]
      cases h2 : extractRows mid n bt bw rest with
      | error u => simp [Except.map]
      | ok rs => simp [Except.map, combine_cons]

/-- Row extraction succeeds on the empty list exactly with no rows. -/
theorem extractRows_nil (mid n : Nat) (bt bw : Option String) :
    ∀ (es : List (String × RawDelivery)) (rows : List DeliveryRow),
      extractRows mid n bt bw es = .ok rows → (es = [] ↔ rows = []) := by
  intro es
  cases es with
  | nil =>
    intro rows h
    simp only [extractRows] at h
    injection h with h1
    subst h1
    simp
  | cons e rest =>
    intro rows h
    simp only [extractRows] at h
    split at h
    · exact Except.noConfusion h
    · split at h
      · exact Except.noConfusion h
      · injection h with h1
        subst h1
        simp

/-- Every extracted row comes from one source delivery entry. -/
theorem extractRows_mem (mid n : Nat) (bt bw : Option String) :
    ∀ (es : List (String × RawDelivery)) (rows : List DeliveryRow),
      extractRows mid n bt bw es = .ok rows →
      ∀ row ∈ rows, ∃ e ∈ es, extractOneDelivery mid n bt bw e = .ok row := by
  intro es
  induction es with
  | nil =>
    intro rows h row hm
    simp only [extractRows] at h
    injection h with h1
    subst h1
    simp at hm
  | cons e rest ih =>
    intro rows h row hm
    simp only [extractRows] at h
    split at h
    · exact Except.noConfusion h
    · rename_i r h1
      split at h
      · exact Except.noConfusion h
      · rename_i rs h2
        injection h with h3
        subst h3
        rcases List.mem_cons.mp hm with h4 | h4
        · subst h4
          exact ⟨e, List.mem_cons_self _ _, h1⟩
        · obtain ⟨e2, he2, hex⟩ := ih rs h2 row h4
          exact ⟨e2, List.mem_cons_of_mem _ he2, hex⟩

/-- The last extracted row comes from the last source delivery entry. -/
theorem extractRows_getLast (mid n : Nat) (bt bw : Option String) :
    ∀ (es : List (String × RawDelivery)) (rows : List DeliveryRow),
      extractRows mid n bt bw es = .ok rows → es ≠ [] →
      ∃ e r, es.getLast? = some e ∧ rows.getLast? = some r ∧
        extractOneDelivery mid n bt bw e = .ok r := by
  intro es
  induction es with
  | nil =>
    intro rows h hne
    exact absurd rfl hne
  | cons e rest ih =>
    intro rows h hne
    simp only [extractRows] at h
    split at h
    · exact Except.noConfusion h
    · rename_i r h1
      split at h
      · exact Except.noConfusion h
      · rename_i rs h2
        injection h with h3
        subst h3
        cases hr : rest with
        | nil =>
          subst hr
          have hrs : rs = [] := by
            simp only [extractRows] at h2
            injection h2 with h4
            exact h4.symm
          subst hrs
          exact ⟨e, r, rfl, rfl, h1⟩
        | cons x xs =>
          subst hr
          obtain ⟨e2, r2, hg1, hg2, hex⟩ := ih rs h2 (by simp)
          refine ⟨e2, r2, ?_, ?_, hex⟩
          · rw [List.getLast?_cons_cons]
            exact hg1
          · have hrs : rs ≠ [] := by
              intro hh
              subst hh
              simp at hg2
            cases rs with
            | nil => exact absurd rfl hrs
            | cons y ys =>
              rw [List.getLast?_cons_cons]
              exact hg2

/-- A successful per-delivery extraction comes from a parsed label and
builds exactly `mkDeliveryRow`. -/
theorem extractOneDelivery_shape (mid n : Nat) (bt bw : Option String)
    (e : String × RawDelivery) (row : DeliveryRow)
    (h : extractOneDelivery mid n bt bw e = .ok row) :
    ∃ ob, parse_over_ball e.1 = some ob ∧ row = mkDeliveryRow mid n bt bw ob e.2 := by
  unfold extractOneDelivery at h
  split at h
  · exact Except.noConfusion h
  · rename_i ob hp
    injection h with h1
    exact ⟨ob, hp, h1.symm⟩

/-- Characterization of a successful per-innings extraction: the
delivery rows are the row extraction of the innings' deliveries, and
the innings row's fields are the loop totals over those rows. -/
theorem processInnings_shape (mid : Nat) (teams : List String) (idx : Nat)
    (inn : RawInnings) (row : InningsRow) (dels : List DeliveryRow)
    (h : processInnings mid teams idx inn = .ok (row, dels)) :
    extractRows mid (idx + 1) inn.team (inferBowling teams inn.team) inn.deliveries = .ok dels ∧
    row.batting_team = inn.team ∧
    row.bowling_team = inferBowling teams inn.team ∧
    row.total_runs = (dels.map (fun r => r.runs_total)).sum ∧
    row.total_extras = (dels.map (fun r => r.runs_extras)).sum ∧
    row.total_wickets = Int.ofNat (dels.filter (fun r => r.is_wicket)).length ∧
    row.total_overs =
      toString (((dels.getLast?).map (fun r => r.over_number)).getD 0) ++ "." ++
      toString (((dels.getLast?).map (fun r => r.ball_number)).getD 0) := by
  unfold processInnings at h
  dsimp only at h
  rw [processDeliveries_eq] at h
  cases hx : extractRows mid (idx + 1) inn.team (inferBowling teams inn.team) inn.deliveries with
  | error u =>
    rw [hx] at h
    simp [Except.map] at h
  | ok rows =>
    rw [hx] at h
    simp only [Except.map] at h
    injection h with h1
    injection h1 with h2 h3
    subst h2
    subst h3
    refine ⟨?_, ?_, ?_, ?_, ?_, ?_, ?_⟩ <;> simp [combine, initAcc, hx]

/-- Every delivery row of the whole extraction comes from one per-delivery
extraction. -/
theorem extractInningsList_mem (mid : Nat) (teams : List String) :
    ∀ (inns : List RawInnings) (idx : Nat) (irows : List InningsRow)
      (drows : List DeliveryRow),
      extractInningsList mid teams idx inns = .ok (irows, drows) →
      ∀ row ∈ drows, ∃ n bt bw e, extractOneDelivery mid n bt bw e = .ok row := by
  intro inns
  induction inns with
  | nil =>
    intro idx irows drows h row hm
    simp only [extractInningsList] at h
    injection h with h1
    injection h1 with h2 h3
    subst h3
    simp at hm
  | cons inn rest ih =>
    intro idx irows drows h row hm
    simp only [extractInningsList] at h
    split at h
    · exact Except.noConfusion h
    · rename_i r1 d1 hp
      split at h
      · exact Except.noConfusion h
      · rename_i r2 d2 hq
        injection h with h1
        injection h1 with h2 h3
        subst h3
        rcases List.mem_append.mp hm with hm1 | hm2
        · have hx := (processInnings_shape mid teams idx inn r1 d1 hp).1
          obtain ⟨e, he, hex⟩ :=
            extractRows_mem mid (idx + 1) inn.team (inferBowling teams inn.team)
              inn.deliveries d1 hx row hm1
          exact ⟨idx + 1, inn.team, inferBowling teams inn.team, e, hex⟩
        · exact ih (idx + 1) r2 d2 hq row hm2

/-- The derived-flag block of `mkDeliveryRow`, on the row's own fields. -/
theorem mkDeliveryRow_flags (mid n : Nat) (bt bw : Option String)
    (ob : Int × Int) (d : RawDelivery) :
    ((mkDeliveryRow mid n bt bw ob d).is_legal_delivery = true ↔
      ((mkDeliveryRow mid n bt bw ob d).extras_wides = 0 ∧
       (mkDeliveryRow mid n bt bw ob d).extras_noballs = 0)) ∧
    ((mkDeliveryRow mid n bt bw ob d).is_four = true ↔
      (mkDeliveryRow mid n bt bw ob d).runs_batter = 4) ∧
    ((mkDeliveryRow mid n bt bw ob d).is_boundary = true ↔
      ((mkDeliveryRow mid n bt bw ob d).runs_batter = 4 ∨
       (mkDeliveryRow mid n bt bw ob d).runs_batter = 6)) ∧
    ((mkDeliveryRow mid n bt bw ob d).is_dot_ball = true ↔
      ((mkDeliveryRow mid n bt bw ob d).runs_total = 0 ∧
       (mkDeliveryRow mid n bt bw ob d).is_legal_delivery = true)) ∧
    ((mkDeliveryRow mid n bt bw ob d).runs_batter = 4 →
      (mkDeliveryRow mid n bt bw ob d).runs_total ≠ 0 →
      (mkDeliveryRow mid n bt bw ob d).is_legal_delivery = true →
      (mkDeliveryRow mid n bt bw ob d).is_four = true ∧
      (mkDeliveryRow mid n bt bw ob d).is_boundary = true ∧
      (mkDeliveryRow mid n bt bw ob d).is_dot_ball = false) ∧
    ((mkDeliveryRow mid n bt bw ob d).runs_total = 0 →
      (mkDeliveryRow mid n bt bw ob d).extras_wides ≠ 0 →
      (mkDeliveryRow mid n bt bw ob d).is_dot_ball = false) := by
  dsimp only [mkDeliveryRow]
  refine ⟨?_, ?_, ?_, ?_, ?_, ?_⟩
  · simp [Bool.and_eq_true, beq_iff_eq]
  · simp [beq_iff_eq]
  · simp [Bool.or_eq_true, beq_iff_eq]
  · simp [Bool.and_eq_true, beq_iff_eq]
  · intro h1 h2 h3
    refine ⟨by simp [h1], by simp [h1], ?_⟩
    simp [beq_eq_false_iff_ne.mpr h2]
  · intro h1 h2
    simp [beq_eq_false_iff_ne.mpr h2]

/-- C3 (amended).  Every extracted delivery satisfies: legal iff wides
and no-balls are both 0; four iff batter runs are 4; boundary iff batter
runs are 4 or 6; dot ball iff total runs are 0 and the delivery is
legal.  Hence a delivery with batter runs 4, non-zero total runs and
legal true has four/boundary true and dot false, and a delivery with
total runs 0 but a wide recorded has dot false.  (Without the
total-runs side condition the instance fails, see the counterexample.) -/
theorem delivery_flags (y : RawMatch) (mid : Nat) (teams : List String)
    (out : List InningsRow × List DeliveryRow)
    (h : extract_innings_and_deliveries y mid teams = .ok out) :
    ∀ row ∈ out.2,
      (row.is_legal_delivery = true ↔
        (row.extras_wides = 0 ∧ row.extras_noballs = 0)) ∧
      (row.is_four = true ↔ row.runs_batter = 4) ∧
      (row.is_boundary = true ↔ (row.runs_batter = 4 ∨ row.runs_batter = 6)) ∧
      (row.is_dot_ball = true ↔
        (row.runs_total = 0 ∧ row.is_legal_delivery = true)) ∧
      (row.runs_batter = 4 → row.runs_total ≠ 0 → row.is_legal_delivery = true →
        row.is_four = true ∧ row.is_boundary = true ∧ row.is_dot_ball = false) ∧
      (row.runs_total = 0 → row.extras_wides ≠ 0 → row.is_dot_ball = false) := by
  obtain ⟨outI, outD⟩ := out
  intro row hm
  obtain ⟨n, bt, bw, e, he⟩ :=
    extractInningsList_mem mid teams y.innings 0 outI outD h row hm
  obtain ⟨ob, hp, hrow⟩ := extractOneDelivery_shape mid n bt bw e row he
  subst hrow
  exact mkDeliveryRow_flags mid n bt bw ob e.2

/-- Witness for C3 on the sample record's first delivery (batter runs 4,
total 4, legal). -/
theorem delivery_flags_witness :
    sampleRow.is_four = true ∧ sampleRow.is_boundary = true ∧
    sampleRow.is_dot_ball = false := by
  have h : extract_innings_and_deliveries sampleMatch 1 ["A", "B"] = .ok sampleOut := rfl
  have H := delivery_flags sampleMatch 1 ["A", "B"] sampleOut h sampleRow (by decide)
  exact H.2.2.2.2.1 (by decide) (by decide) (by decide)

/-- Counterexample for C3 as stated: raw data can record batter runs 4
with total runs 0, and then the extracted delivery is legal, has batter
runs 4, yet `is_dot_ball` is `true` — the claim's "hence" instance
demands `false`. -/
theorem dot_ball_despite_four_cex :
    badTotalsRow.runs_batter = 4 ∧ badTotalsRow.is_legal_delivery = true ∧
    badTotalsRow.is_dot_ball = true :=
  ⟨rfl, rfl, rfl⟩

/-- The source's `or`-chain over the two striker-runs spellings equals
the first-non-zero rule. -/
theorem pyOr_firstNonZero (x z : Option Int) :
    pyOrI (x.getD 0) (pyOrI (z.getD 0) 0) = firstNonZero [x, z] := by
  by_cases ha : x.getD 0 = 0 <;> by_cases hb : z.getD 0 = 0 <;>
    simp [pyOrI, firstNonZero, ha, hb]

/-- C10.  The extracted striker's runs value is the first non-zero value
among the run breakdown's `batsman` field and then its `batter` field,
and `0` when both are absent or zero — so a zero `batsman` value falls
through to a non-zero `batter` value (see the witness). -/
theorem striker_runs (mid n : Nat) (bt bw : Option String) (lbl : String)
    (d : RawDelivery) (row : DeliveryRow)
    (h : extractOneDelivery mid n bt bw (lbl, d) = .ok row) :
    row.runs_batter =
      firstNonZero [(d.runs.getD noRuns).batsman, (d.runs.getD noRuns).batter] := by
  obtain ⟨ob, hp, hrow⟩ := extractOneDelivery_shape mid n bt bw (lbl, d) row h
  subst hrow
  exact pyOr_firstNonZero _ _

/-- Witness for C10: `batsman` recorded as 0, `batter` as 5 — the value
used is 5 even though `batsman` is the higher-priority spelling. -/
theorem striker_runs_witness : twoSpellingsRow.runs_batter = 5 := by
  have h : extractOneDelivery 1 1 none none ("0.1", twoSpellingsD) = .ok twoSpellingsRow := rfl
  have H := striker_runs 1 1 none none "0.1" twoSpellingsD twoSpellingsRow h
  exact H.trans (by decide)

/-- C4 (amended).  For an innings of a record whose team list names two
distinct teams, the inferred bowling team is the other team; in general
the bowling team is left unknown exactly when every entry of the team
list equals the batting team (and not only when the list has fewer than
2 entries, see the counterexample). -/
theorem bowling_team_inference (mid : Nat) (teams : List String) (idx : Nat)
    (inn : RawInnings) (row : InningsRow) (dels : List DeliveryRow)
    (h : processInnings mid teams idx inn = .ok (row, dels)) :
    (∀ t1 t2, teams = [t1, t2] → t1 ≠ t2 →
      (inn.team = some t1 → row.bowling_team = some t2) ∧
      (inn.team = some t2 → row.bowling_team = some t1)) ∧
    (row.bowling_team = none ↔ ∀ t ∈ teams, inn.team = some t) := by
  have hb := (processInnings_shape mid teams idx inn row dels h).2.2.1
  constructor
  · intro t1 t2 hteams hne
    subst hteams
    constructor
    · intro hbat
      rw [hb, hbat]
      simp [inferBowling, List.find?, beq_eq_false_iff_ne.mpr hne]
    · intro hbat
      have hne2 : t2 ≠ t1 := fun hh => hne hh.symm
      rw [hb, hbat]
      simp [inferBowling, List.find?, beq_eq_false_iff_ne.mpr hne2]
  · rw [hb]
    unfold inferBowling
    rw [List.find?_eq_none]
    simp

/-- Witness for C4 on an innings batted by `B` in the team list
`["A", "B"]`: the inferred bowling team is `A`. -/
theorem bowling_team_inference_witness :
    innBattingBPair.1.bowling_team = some "A" :=
  ((bowling_team_inference 1 ["A", "B"] 1 innBattingB innBattingBPair.1
      innBattingBPair.2 rfl).1 "A" "B" rfl (by decide)).2 rfl

/-- Counterexample for C4 as stated: with the two-entry team list
`["A", "A"]` and batting team `A`, the bowling team is left unknown even
though the list does not have fewer than 2 entries. -/
theorem bowling_unknown_two_entry_cex :
    (processInnings 1 ["A", "A"] 0 innNoDeliveries).toOption.map
      (fun p => p.1.bowling_team) = some none ∧
    (["A", "A"] : List String).length = 2 :=
  ⟨rfl, rfl⟩

/-- C7.  An innings entry containing zero deliveries produces an innings
row with total runs 0, total wickets 0, total extras 0 and overs faced
`"0.0"`, and contributes no delivery rows. -/
theorem empty_innings_row (mid : Nat) (teams : List String) (idx : Nat)
    (inn : RawInnings) (h : inn.deliveries = []) :
    (processInnings mid teams idx inn).toOption.map
      (fun p => (p.1.total_runs, p.1.total_wickets, p.1.total_extras,
        p.1.total_overs, p.2)) =
      some (0, 0, 0, "0.0", ([] : List DeliveryRow)) := by
  unfold processInnings
  rw [h]
  rfl

/-- Witness for C7 on a concrete zero-delivery innings. -/
theorem empty_innings_row_witness :
    (processInnings 1 ["A", "B"] 0 innNoDeliveries).toOption.map
      (fun p => (p.1.total_runs, p.1.total_wickets, p.1.total_extras,
        p.1.total_overs, p.2)) =
      some (0, 0, 0, "0.0", ([] : List DeliveryRow)) :=
  empty_innings_row 1 ["A", "B"] 0 innNoDeliveries rfl

/-- C8 (amended).  For an innings with at least one delivery: total runs
is the sum of the deliveries' total runs, the wicket count is the number
of deliveries with a recorded wicket, total extras is the sum of the
deliveries' extras runs, and the recorded overs faced is the string
`over.ball` rebuilt from the parsed over and ball indices of the final
delivery processed — not the final label verbatim: the rebuilt string
can differ from the label, e.g. label `"7"` is recorded as `"7.1"` (see
the counterexample) and label `"7.01"` as `"7.1"`. -/
theorem innings_totals (mid : Nat) (teams : List String) (idx : Nat)
    (inn : RawInnings) (row : InningsRow) (dels : List DeliveryRow)
    (h : processInnings mid teams idx inn = .ok (row, dels))
    (hne : inn.deliveries ≠ []) :
    row.total_runs = (dels.map (fun r => r.runs_total)).sum ∧
    row.total_extras = (dels.map (fun r => r.runs_extras)).sum ∧
    row.total_wickets = Int.ofNat (dels.filter (fun r => r.is_wicket)).length ∧
    (dels.getLast?).map
      (fun r => toString r.over_number ++ "." ++ toString r.ball_number) =
      some row.total_overs ∧
    (inn.deliveries.getLast?).map
      (fun e => (parse_over_ball e.1).map
        (fun p => toString p.1 ++ "." ++ toString p.2)) =
      some (some row.total_overs) := by
  obtain ⟨hx, hbat, hbowl, hruns, hextras, hwick, hovers⟩ :=
    processInnings_shape mid teams idx inn row dels h
  obtain ⟨e, r, hg1, hg2, hex⟩ :=
    extractRows_getLast mid (idx + 1) inn.team (inferBowling teams inn.team)
      inn.deliveries dels hx hne
  rw [hg2] at hovers
  refine ⟨hruns, hextras, hwick, ?_, ?_⟩
  · rw [hg2, hovers]
    rfl
  · rw [hg1]
    obtain ⟨ob, hp, hrow⟩ := extractOneDelivery_shape mid (idx + 1) inn.team
      (inferBowling teams inn.team) e r hex
    have hp2 : parse_over_ball e.1 = some (r.over_number, r.ball_number) := by
      rw [hp, hrow]
      rfl
    simp only [Option.map_some']
    rw [hp2, hovers]
    simp only [Option.map_some']
    rfl

/-- Witness for C8 on the two-delivery sample innings. -/
theorem innings_totals_witness :
    sampleInnPair.1.total_runs =
      (sampleInnPair.2.map (fun r => r.runs_total)).sum ∧
    (sampleInnPair.2.getLast?).map
      (fun r => toString r.over_number ++ "." ++ toString r.ball_number) =
      some sampleInnPair.1.total_overs := by
  have h : processInnings 1 ["A", "B"] 0 sampleInn =
      .ok (sampleInnPair.1, sampleInnPair.2) := rfl
  have H := innings_totals 1 ["A", "B"] 0 sampleInn sampleInnPair.1
    sampleInnPair.2 h (by simp [sampleInn])
  exact ⟨H.1, H.2.2.2.1⟩

/-- Counterexample for C8 as stated: an innings whose final delivery is
labelled `"7"` records overs faced `"7.1"` (the ball index defaults to
1 and the label is rebuilt), not the label `"7"` verbatim. -/
theorem overs_label_not_verbatim_cex :
    (processInnings 1 ["A", "B"] 0 sampleInnDotless).toOption.map
      (fun p => p.1.total_overs) = some "7.1" ∧
    ("7.1" : String) ≠ "7" :=
  ⟨rfl, by decide⟩

/-! ### Theorems: the load orchestrator (C5, C6) -/

/-- C5.  Re-processing a record whose natural key (`source_file`)
already exists in storage leaves storage completely unchanged — the
match/innings/delivery tables are untouched, no child entity is
inserted — and the per-file loop counts the record as skipped (counts
are (success, skip, error)), not as failed, and does not ingest it a
second time. -/
theorem reingest_skips (st : Storage) (f : String) (r : RawMatch)
    (md : MatchData) (hex : extract_match_data f r = .ok md)
    (hdup : (st.matchTable.any fun p => p.2.source_file == md.source_file) = true) :
    process_yaml_file st f (some r) = (st, ProcOut.retFalse) ∧
    mainLoop st [(f, some r)] = (st, (0, 1, 0)) := by
  have h1 : process_yaml_file st f (some r) = (st, ProcOut.retFalse) := by
    simp [process_yaml_file, hex, insert_match, hdup]
  refine ⟨h1, ?_⟩
  simp [mainLoop, mainStep, h1]

/-- Witness for C5: `sampleRec` under key `m1.yaml` against a storage
that already holds that key. -/
theorem reingest_skips_witness :
    process_yaml_file storageWithSample "m1.yaml" (some sampleRec) =
      (storageWithSample, ProcOut.retFalse) ∧
    mainLoop storageWithSample [("m1.yaml", some sampleRec)] =
      (storageWithSample, (0, 1, 0)) :=
  reingest_skips storageWithSample "m1.yaml" sampleRec sampleMD rfl rfl

/-- C6 (code bug).  A record that cannot be interpreted as the expected
nested structure (empty or unparseable YAML, `process_yaml_file` returns
`False`) is counted by `main` as SKIPPED — the `skip` counter, reported
as "Skipped (already exists)" — not as failed, contradicting the spec's
`MalformedSource` accounting; processing does continue with the next
record (second conjunct: a following good record still succeeds). -/
theorem malformed_record_counted_skipped :
    (mainLoop emptyStorage [("empty.yaml", none)]).2 = (0, 1, 0) ∧
    (mainLoop emptyStorage [("empty.yaml", none), ("ok.yaml", some sampleRec)]).2 =
      (1, 1, 0) :=
  ⟨rfl, rfl⟩
